import Mathlib

/-!
Shallow embedding of the `workspaces` lifecycle manager (KatherLab/workspaces).

Sources embedded: `src/create.rs`, `src/extend.rs`, `src/expire.rs`,
`src/rename.rs`, `src/maintain.rs`, `src/config.rs`, `src/db_schema.rs`,
`src/main.rs` (`update_database_schema_if_necessary`).

Modelling conventions:
* Instants (`chrono::DateTime<Utc>`) and durations (`chrono::Duration`) are
  integers in a single unit (seconds); `Duration::days d` is `d * 86400`.
  Distinct `Utc::now()` calls inside one operation are modelled as a single
  instant `now` from the execution context.
* SQLite tables become Lean lists; a transaction that panics or errors before
  `commit` leaves the store unchanged (rollback), a committed transaction
  replaces the store.
* External side effects (ZFS calls, SMTP sends, commits) are recorded in an
  event trace; their success or failure is supplied by boolean oracles.
* `process::exit`, panics and propagated `Result` errors are the three
  outcome variants of `OpErr`.
* Presentation details (email bodies, `num_days` truncation when formatting,
  mountpoint permissions/chown after volume creation) are not part of the
  store or of the decision logic and are not modelled.
-/

/-- A row of the `workspaces` table (`db_schema.rs`, migration 1): explicit
integer primary key, the unique triple (filesystem, user, name) and the
expiration instant. -/
structure Workspace where
  id : Nat
  filesystem : String
  user : String
  name : String
  expiration_time : Int
deriving DecidableEq, BEq

/-- A row of the `notifications` table: weak reference to a workspace id plus
a timestamp; cascades on workspace deletion. -/
structure NotificationEntry where
  workspace_id : Nat
  timestamp : Int
deriving DecidableEq, BEq

/-- The persistent store: the two tables of `db_schema.rs`. -/
structure Store where
  workspaces : List Workspace
  notifications : List NotificationEntry
deriving DecidableEq, BEq

/-- `config::Filesystem` (`config.rs`): per-filesystem policy. -/
structure Filesystem where
  root : String
  max_duration : Int
  expired_retention : Int
  expiry_notifications_on_days : List Int
  snapshot : Bool
  disabled : Bool
deriving DecidableEq, BEq

/-- The ambient process state of one CLI invocation: `get_current_username()`,
`get_current_uid()` and the invocation instant. -/
structure ExecCtx where
  current_username : String
  current_uid : Nat
  now : Int
deriving DecidableEq, BEq

/-- `ExitCodes` from `main.rs`. -/
inductive ExitCode
  | insufficientPrivileges
  | fsDisabled
  | tooHighDuration
  | unknownWorkspace
  | workspaceExists
  | noFilesystemSpecified
deriving DecidableEq, BEq

/-- How an operation ended abnormally: `process::exit` with a code, a panic
(`unwrap` / `expect` / `assert!`), or a propagated `Result` error. -/
inductive OpErr
  | exited (code : ExitCode)
  | panicked
  | externalResourceError
deriving DecidableEq, BEq

/-- Externally visible effects, in the order they are attempted. -/
inductive Event
  | storeCommit
  | volCreate (volume : String)
  | volDestroy (volume : String)
  | volRename (src_volume dest_volume : String)
  | volSetProperty (volume property value : String)
  | volSnapshot (volume : String)
  | mailSend
deriving DecidableEq, BEq

/-- Result of running one operation: the store visible afterwards (original if
nothing committed), the trace of external effects, and the abnormal outcome
if any (`none` = success). -/
structure OpResult where
  store : Store
  trace : List Event
  outcome : Option OpErr
deriving DecidableEq, BEq

/-- `to_volume_string` from `main.rs`. -/
def to_volume_string (root user name : String) : String :=
  root ++ "/" ++ user ++ "/" ++ name

/-- The (filesystem, user, name) WHERE clause shared by the operations. -/
def tripleMatches (filesystem_name user name : String) (w : Workspace) : Bool :=
  w.filesystem == filesystem_name && w.user == user && w.name == name

/-- `SELECT ... FROM workspaces WHERE filesystem = ?1 AND user = ?2 AND name = ?3`. -/
def findWorkspace (s : Store) (filesystem_name user name : String) : Option Workspace :=
  s.workspaces.find? (tripleMatches filesystem_name user name)

/-- SQLite `last_insert_rowid` for a fresh `INTEGER PRIMARY KEY` row:
one past the largest id in the table. -/
def freshId (s : Store) : Nat :=
  (s.workspaces.map Workspace.id).foldr max 0 + 1

/-- `create` from `create.rs`: privilege, disabled and duration checks, then a
single transaction inserting the workspace row (expiration `now + duration`)
and a notification entry stamped `now`; uniqueness conflict exits with
`WorkspaceExists` before anything is committed.  After the commit the ZFS
volume is created (`zfs::create` failure propagates as an error with the row
already durable). -/
def create (ctx : ExecCtx) (s : Store) (filesystem_name : String) (filesystem : Filesystem)
    (user name : String) (duration : Int) (zfsCreateOk : Bool) : OpResult :=
  if ctx.current_username ≠ user ∧ ctx.current_uid ≠ 0 then
    ⟨s, [], some (.exited .insufficientPrivileges)⟩
  else if filesystem.disabled ∧ ctx.current_uid ≠ 0 then
    ⟨s, [], some (.exited .fsDisabled)⟩
  else if filesystem.max_duration < duration ∧ ctx.current_uid ≠ 0 then
    ⟨s, [], some (.exited .tooHighDuration)⟩
  else if (findWorkspace s filesystem_name user name).isSome then
    ⟨s, [], some (.exited .workspaceExists)⟩
  else
    let wid := freshId s
    let s' : Store :=
      ⟨s.workspaces ++ [⟨wid, filesystem_name, user, name, ctx.now + duration⟩],
       s.notifications ++ [⟨wid, ctx.now⟩]⟩
    let volume := to_volume_string filesystem.root user name
    if zfsCreateOk then
      ⟨s', [.storeCommit, .volCreate volume], none⟩
    else
      ⟨s', [.storeCommit, .volCreate volume], some .externalResourceError⟩

/-- `expire` from `expire.rs`: privilege check; candidate expiration is `now`
or `now - expired_retention` (immediate); the transaction resolves the row
(`UnknownWorkspace` exit if absent), lowers `expiration_time` to
`MIN(expiration_time, candidate)` and inserts a silence notification stamped
`now`; after the commit the volume is set read-only (`unwrap` panics on
failure, after the commit). -/
def expire (ctx : ExecCtx) (s : Store) (filesystem_name : String) (filesystem : Filesystem)
    (user name : String) (delete_on_next_clean : Bool) (zfsSetOk : Bool) : OpResult :=
  if ctx.current_username ≠ user ∧ ctx.current_uid ≠ 0 then
    ⟨s, [], some (.exited .insufficientPrivileges)⟩
  else
    let expiration_time :=
      if delete_on_next_clean then ctx.now - filesystem.expired_retention else ctx.now
    match findWorkspace s filesystem_name user name with
    | none => ⟨s, [], some (.exited .unknownWorkspace)⟩
    | some w =>
      let s' : Store :=
        ⟨s.workspaces.map (fun v =>
            if v.id == w.id then
              { v with expiration_time := min v.expiration_time expiration_time }
            else v),
         s.notifications ++ [⟨w.id, ctx.now⟩]⟩
      let volume := to_volume_string filesystem.root user name
      ⟨s', [.storeCommit, .volSetProperty volume "readonly" "on"],
       if zfsSetOk then none else some .panicked⟩

/-- `extend` from `extend.rs`: privilege, disabled and duration checks; the
transaction resolves the row (`UnknownWorkspace` exit if absent), raises
`expiration_time` to `MAX(expiration_time, now + duration)`, deletes the
row's notification entries with a timestamp strictly in the future, and, when
the caller is the unprivileged owner, inserts an acknowledgement entry
stamped `now`; after the commit the volume is set read-write. -/
def extend (ctx : ExecCtx) (s : Store) (filesystem_name : String) (filesystem : Filesystem)
    (user name : String) (duration : Int) (zfsSetOk : Bool) : OpResult :=
  if ctx.current_username ≠ user ∧ ctx.current_uid ≠ 0 then
    ⟨s, [], some (.exited .insufficientPrivileges)⟩
  else if filesystem.disabled ∧ ctx.current_uid ≠ 0 then
    ⟨s, [], some (.exited .fsDisabled)⟩
  else if filesystem.max_duration < duration ∧ ctx.current_uid ≠ 0 then
    ⟨s, [], some (.exited .tooHighDuration)⟩
  else
    match findWorkspace s filesystem_name user name with
    | none => ⟨s, [], some (.exited .unknownWorkspace)⟩
    | some w =>
      let ws' := s.workspaces.map (fun v =>
        if v.id == w.id then
          { v with expiration_time := max v.expiration_time (ctx.now + duration) }
        else v)
      let ns1 := s.notifications.filter (fun n =>
        !(n.workspace_id == w.id && decide (ctx.now < n.timestamp)))
      let ns' :=
        if ctx.current_username = user ∧ ctx.current_uid ≠ 0 then
          ns1 ++ [⟨w.id, ctx.now⟩]
        else ns1
      let volume := to_volume_string filesystem.root user name
      ⟨⟨ws', ns'⟩, [.storeCommit, .volSetProperty volume "readonly" "off"],
       if zfsSetOk then none else some .panicked⟩

/-- `rename` from `rename.rs`: privilege and disabled checks; the transaction
runs `UPDATE workspaces SET name = dest WHERE (filesystem, user, name) =
(fs, user, src)` — a zero-row match is an `Ok`, a uniqueness conflict at the
destination exits with `WorkspaceExists`; then the ZFS volume is renamed
(`unwrap` panics on failure, rolling the still-open transaction back)
and only afterwards is the transaction committed. -/
def rename (ctx : ExecCtx) (s : Store) (filesystem_name : String) (filesystem : Filesystem)
    (user src_name dest_name : String) (zfsRenameOk : Bool) : OpResult :=
  if ctx.current_username ≠ user ∧ ctx.current_uid ≠ 0 then
    ⟨s, [], some (.exited .insufficientPrivileges)⟩
  else if filesystem.disabled ∧ ctx.current_uid ≠ 0 then
    ⟨s, [], some (.exited .fsDisabled)⟩
  else if (findWorkspace s filesystem_name user src_name).isSome ∧ src_name ≠ dest_name ∧
      (findWorkspace s filesystem_name user dest_name).isSome then
    ⟨s, [], some (.exited .workspaceExists)⟩
  else
    let src_volume := to_volume_string filesystem.root user src_name
    let dest_volume := to_volume_string filesystem.root user dest_name
    if zfsRenameOk then
      ⟨⟨s.workspaces.map (fun w =>
          if tripleMatches filesystem_name user src_name w then { w with name := dest_name }
          else w),
        s.notifications⟩,
       [.volRename src_volume dest_volume, .storeCommit], none⟩
    else
      ⟨s, [.volRename src_volume dest_volume], some .panicked⟩

/-- True on the Volume Manager side effects among the events. -/
def Event.isVol : Event → Bool
  | .volCreate _ => true
  | .volDestroy _ => true
  | .volRename _ _ => true
  | .volSetProperty _ _ _ => true
  | .volSnapshot _ => true
  | _ => false

/-- True on the store-commit event. -/
def Event.commitP : Event → Bool
  | .storeCommit => true
  | _ => false

/-- Whether some Volume Manager effect is attempted before the first store
commit of a trace. -/
def volEventBeforeCommit (tr : List Event) : Bool :=
  (tr.takeWhile (fun e => !e.commitP)).any Event.isVol

/-- `from_days_list` from `config.rs`: the deserializer sorts the configured
day counts ascending and converts each to a duration (`Duration::days`). -/
def from_days_list (days : List Int) : List Int :=
  (List.insertionSort (fun a b => a ≤ b) days).map (fun d => d * 86400)

/-- The message the scheduler sends on firing (`maintain.rs`): either days
until expiry, or days until permanent deletion; the model keeps the exact
durations, `num_days` truncation is formatting. -/
inductive NotifyMessage
  | expiresIn (remaining : Int)
  | deletedIn (untilDeletion : Int)
deriving DecidableEq, BEq

/-- Largest element of a list of timestamps, if any. -/
def maxTimestamp : List Int → Option Int
  | [] => none
  | t :: ts =>
    match maxTimestamp ts with
    | none => some t
    | some m => some (max t m)

/-- `SELECT timestamp FROM notifications WHERE workspace_id = ?1 ORDER BY
timestamp DESC LIMIT 1` (`maintain.rs`): the most recent (largest) timestamp
among the workspace's entries. -/
def lastNotificationTime (ns : List NotificationEntry) (workspace_id : Nat) : Option Int :=
  maxTimestamp ((ns.filter (fun n => n.workspace_id == workspace_id)).map NotificationEntry.timestamp)

/-- The pure scheduling core of `notify_if_necessary_` (`maintain.rs`,
lines 254-298): pick the first configured offset strictly greater than
`remaining = expiration_time - now`; fire only when there is no previous
notification or it is strictly earlier than `expiration_time - offset`;
the message is days-until-expiry when `remaining > 0` and
days-until-deletion (`expired_retention + remaining`) otherwise. -/
def notifyDecision (filesystem : Filesystem) (expiration_time now : Int)
    (last_notification_time : Option Int) : Option NotifyMessage :=
  let duration_until_expiry := expiration_time - now
  match filesystem.expiry_notifications_on_days.find?
      (fun d => decide (duration_until_expiry < d)) with
  | none => none
  | some offset =>
    let should_fire :=
      match last_notification_time with
      | none => true
      | some t => decide (t < expiration_time - offset)
    if should_fire then
      some (if 0 < duration_until_expiry then
              .expiresIn duration_until_expiry
            else
              .deletedIn (filesystem.expired_retention + duration_until_expiry))
    else none

/-- Outcome of resolving a user's `~/.config/workspaces.toml`
(`notify_if_necessary_`): usable, a recoverable read/parse error
(`UserConfigReadError` / `UserConfigParseError`), or an unresolvable user
(`UserNotFoundError`, which `maintain` does not treat as recoverable). -/
inductive UserConfigResult
  | found
  | recoverableError
  | notFoundUser
deriving DecidableEq, BEq

/-- Oracles for the IO performed by `notify_if_necessary_`: per-user config
resolution, SMTP relay/TLS transport construction, the From-mailbox parse and
the actual send. -/
structure NotifyCtx where
  userConfig : String → UserConfigResult
  relayOk : Bool
  fromOk : Bool
  sendOk : Bool

/-- How one `notify_if_necessary_` call is classified by `maintain`'s match:
recoverable (log and continue), non-recoverable (`expect` panics), or done
with an optional fired message and the updated notifications table. -/
inductive NotifyOutcome
  | recoverable
  | panic
  | done (fired : Option NotifyMessage) (notifications : List NotificationEntry)
deriving DecidableEq, BEq

/-- `notify_if_necessary_` from `maintain.rs`, composed with `maintain`'s
error classification: user lookup (not found is non-recoverable, config
read/parse errors are recoverable), transport construction (failures are
non-recoverable), then the pure decision; on firing, a failed From parse is
recoverable, a failed send is non-recoverable, and a successful send appends
a notification entry stamped `now`. -/
def notify_if_necessary_ (workspace_id : Nat) (username : String) (ctx : NotifyCtx)
    (filesystem : Filesystem) (expiration_time now : Int)
    (ns : List NotificationEntry) : NotifyOutcome :=
  match ctx.userConfig username with
  | .notFoundUser => .panic
  | .recoverableError => .recoverable
  | .found =>
    if !ctx.relayOk then .panic
    else
      match notifyDecision filesystem expiration_time now (lastNotificationTime ns workspace_id) with
      | none => .done none ns
      | some m =>
        if !ctx.fromOk then .recoverable
        else if ctx.sendOk then .done (some m) (ns ++ [⟨workspace_id, now⟩])
        else .panic

/-- `HashMap::get` on the configured filesystems. -/
def lookupFs (filesystems : List (String × Filesystem)) (key : String) : Option Filesystem :=
  (filesystems.find? (fun p => p.1 == key)).map Prod.snd

/-- Derived predicate (used in the theorems below): a workspace row survives
the sweep unless its filesystem resolves, it is past its retention boundary
and the volume destroy succeeds. -/
def keepW (now : Int) (filesystems : List (String × Filesystem))
    (destroyOk : String → Bool) (w : Workspace) : Bool :=
  match lookupFs filesystems w.filesystem with
  | none => true
  | some fs =>
    !(decide (w.expiration_time < now - fs.expired_retention) &&
      destroyOk (to_volume_string fs.root w.user w.name))

/-- The notification step of `maintain`'s per-row loop: skipped entirely when
SMTP is not configured; a recoverable notification error skips only the
notification, a non-recoverable one rolls the sweep transaction back
(`none`); a completed call yields the updated notifications table and a mail
event when a message was sent. -/
def notifyStep (now : Int) (smtp : Option NotifyCtx) (w : Workspace) (fs : Filesystem)
    (ns : List NotificationEntry) : Option (List NotificationEntry × List Event) :=
  match smtp with
  | none => some (ns, [])
  | some ctx =>
    match notify_if_necessary_ w.id w.user ctx fs w.expiration_time now ns with
    | .panic => none
    | .recoverable => some (ns, [])
    | .done fired ns' => some (ns', if fired.isSome then [.mailSend] else [])

/-- The per-row loop of `maintain` (`maintain.rs`, lines 25-75): for each row,
optionally notify (recoverable failures skip only the notification,
non-recoverable ones panic and roll the transaction back), then destroy and
delete rows past retention (a failed destroy `continue`s, keeping the row;
a deletion cascades to the row's notification entries), or set recently
expired volumes read-only (a failure there aborts the sweep via `?`).
Returns `none` when the transaction is rolled back, otherwise the surviving
rows, the notifications table and the trace of external effects. -/
def maintainLoop (now : Int) (filesystems : List (String × Filesystem))
    (smtp : Option NotifyCtx) (destroyOk setReadonlyOk : String → Bool) :
    List Workspace → List NotificationEntry →
      Option (List Workspace × List NotificationEntry × List Event)
  | [], ns => some ([], ns, [])
  | w :: rest, ns =>
    match lookupFs filesystems w.filesystem with
    | none => none
    | some fs =>
      match notifyStep now smtp w fs ns with
      | none => none
      | some (ns1, evs1) =>
        let volume := to_volume_string fs.root w.user w.name
        if w.expiration_time < now - fs.expired_retention then
          if destroyOk volume then
            match maintainLoop now filesystems smtp destroyOk setReadonlyOk rest
                (ns1.filter (fun n => !(n.workspace_id == w.id))) with
            | none => none
            | some (ws', ns', evs') => some (ws', ns', evs1 ++ [.volDestroy volume] ++ evs')
          else
            match maintainLoop now filesystems smtp destroyOk setReadonlyOk rest ns1 with
            | none => none
            | some (ws', ns', evs') => some (w :: ws', ns', evs1 ++ [.volDestroy volume] ++ evs')
        else if w.expiration_time < now then
          if setReadonlyOk volume then
            match maintainLoop now filesystems smtp destroyOk setReadonlyOk rest ns1 with
            | none => none
            | some (ws', ns', evs') =>
              some (w :: ws', ns', evs1 ++ [.volSetProperty volume "readonly" "on"] ++ evs')
          else none
        else
          match maintainLoop now filesystems smtp destroyOk setReadonlyOk rest ns1 with
          | none => none
          | some (ws', ns', evs') => some (w :: ws', ns', evs1 ++ evs')

/-- The post-commit snapshot pass of `maintain`: one `zfs::snapshot` per
filesystem flagged for snapshotting; a failure propagates via `?` (stopping
the pass) after the commit. -/
def snapshotLoop (snapshotOk : String → Bool) :
    List (String × Filesystem) → List Event × Option OpErr
  | [] => ([], none)
  | (_, fs) :: rest =>
    if fs.snapshot then
      if snapshotOk fs.root then
        let (evs, o) := snapshotLoop snapshotOk rest
        (.volSnapshot fs.root :: evs, o)
      else ([.volSnapshot fs.root], some .externalResourceError)
    else snapshotLoop snapshotOk rest

/-- `maintain` from `maintain.rs`: run the per-row loop in one transaction
(a rolled-back loop leaves the store unchanged), commit, then snapshot the
flagged filesystems. -/
def maintain (now : Int) (filesystems : List (String × Filesystem))
    (smtp : Option NotifyCtx) (destroyOk setReadonlyOk snapshotOk : String → Bool)
    (s : Store) : OpResult :=
  match maintainLoop now filesystems smtp destroyOk setReadonlyOk s.workspaces s.notifications with
  | none => ⟨s, [], some .panicked⟩
  | some (ws', ns', evs) =>
    let (snapEvs, snapErr) := snapshotLoop snapshotOk filesystems
    ⟨⟨ws', ns'⟩, evs ++ [.storeCommit] ++ snapEvs, snapErr⟩

/-- One statement executed by a migration closure in `db_schema.rs`. -/
inductive DbAction
  | pragmaUpdate (key value : String)
  | createTable (table : String)
  | renameTable (old_name new_name : String)
  | copyRows (src dst : String)
  | dropTable (table : String)
  | setUserVersion (v : Nat)
  | commitTx
deriving DecidableEq, BEq

/-- `UPDATE_DB` from `db_schema.rs`: the ordered migration list.  Migration 0
creates the initial `workspaces` table; migration 1 rebuilds it with an
explicit id, adds the cascading `notifications` table and enables foreign
keys.  Each records its new `user_version` and then commits its own
transaction. -/
def UPDATE_DB : List (List DbAction) :=
  [ [ .pragmaUpdate "journal_mode" "WAL",
      .createTable "workspaces",
      .setUserVersion 1,
      .commitTx ],
    [ .renameTable "workspaces" "workspaces_old",
      .createTable "workspaces",
      .copyRows "workspaces_old" "workspaces",
      .dropTable "workspaces_old",
      .pragmaUpdate "foreign_keys" "1",
      .createTable "notifications",
      .setUserVersion 2,
      .commitTx ] ]

/-- `NEWEST_DB_VERSION = UPDATE_DB.len()` from `db_schema.rs`. -/
def NEWEST_DB_VERSION : Nat := UPDATE_DB.length

/-- Fatal migrator failures (`main.rs`): a store from a newer unknown version
(the `assert!`), or a failed pre-migration backup (propagated via `?`). -/
inductive SchemaErr
  | newerVersion
  | backupFailed
deriving DecidableEq, BEq

/-- A step taken by the migrator, in order. -/
inductive MigStep
  | backupStore (path : String)
  | runMigration (idx : Nat) (actions : List DbAction)
deriving DecidableEq, BEq

/-- The backup location from `main.rs`: the database file stem joined with a
timestamp and the `.db.bak` suffix. -/
def backupPath (stem stamp : String) : String :=
  stem ++ "-" ++ stamp ++ ".db.bak"

/-- `update_database_schema_if_necessary` from `main.rs`: assert the stored
version is not newer than `NEWEST_DB_VERSION`; return at once when already
current; otherwise back the store up (fatal on failure, before any
migration) and apply `UPDATE_DB[db_version..]` in order.  Returns the steps
performed and the fatal error, if any. -/
def update_database_schema_if_necessary (db_version : Nat) (backupOk : Bool)
    (stem stamp : String) : List MigStep × Option SchemaErr :=
  if NEWEST_DB_VERSION < db_version then ([], some .newerVersion)
  else if db_version = NEWEST_DB_VERSION then ([], none)
  else if !backupOk then ([], some .backupFailed)
  else
    (MigStep.backupStore (backupPath stem stamp) ::
      (UPDATE_DB.enum.drop db_version).map (fun p => MigStep.runMigration p.1 p.2),
     none)

/-- Derived predicate: the action list records `user_version = v` strictly
before its first commit. -/
def DbAction.commitP : DbAction → Bool
  | .commitTx => true
  | _ => false

/-- Derived predicate for the migration shape claims. -/
def recordsVersionBeforeCommit (v : Nat) (acts : List DbAction) : Bool :=
  (acts.takeWhile (fun a => !a.commitP)).contains (.setUserVersion v)

/-- Derived predicate: a strictly ascending list of indices. -/
def strictlyAscending : List Nat → Bool
  | [] => true
  | [_] => true
  | a :: b :: t => decide (a < b) && strictlyAscending (b :: t)

/-- Sample filesystem: 30-day maximum and retention, reminders 7 and 1 days
before expiry. -/
def fsSample : Filesystem :=
  ⟨"tank", 30 * 86400, 30 * 86400, from_days_list [1, 7], false, false⟩

/-- Sample filesystem with a single one-day reminder offset. -/
def fsBoundary : Filesystem :=
  ⟨"tank", 30 * 86400, 30 * 86400, from_days_list [1], false, false⟩

/-- Sample filesystem for the sweep: short retention, one post-expiry
reminder offset. -/
def fsSweep : Filesystem :=
  ⟨"tank", 30 * 86400, 100, from_days_list [-1], false, false⟩

/-- Root invocation context at instant 1000. -/
def ctxRoot : ExecCtx := ⟨"root", 0, 1000⟩

/-- Unprivileged owner invocation context at instant 1000. -/
def ctxAlice : ExecCtx := ⟨"alice", 1000, 1000⟩

/-- Sample store: one workspace with one (future-dated) notification entry. -/
def storeSample : Store :=
  ⟨[⟨1, "fsA", "alice", "proj", 5000⟩], [⟨1, 10000⟩]⟩

/-- Sample store for the sweep counterexample: one long-expired workspace and
no notification history. -/
def storeSweep : Store :=
  ⟨[⟨1, "fsA", "alice", "w", -1000000⟩], []⟩

/-- Notification context in which every external lookup and send succeeds. -/
def notifyCtxOk : NotifyCtx := ⟨fun _ => .found, true, true, true⟩

/-- A list is pointwise related to its image under `f` when `R a (f a)`. -/
theorem forall2_map_self {α : Type} {R : α → α → Prop} {f : α → α} (h : ∀ a, R a (f a)) :
    ∀ l : List α, List.Forall₂ R l (l.map f)
  | [] => List.Forall₂.nil
  | a :: t => List.Forall₂.cons (h a) (forall2_map_self h t)

/-- Claim C2: for every existing workspace and valid invocation, Expire sets
the expiration to the minimum of its current value and the candidate (so it
never increases it) and Extend sets it to the maximum of its current value
and `now + duration` (so it never decreases it); all other rows are left
unchanged, so the whole table moves monotonically. -/
theorem expire_extend_monotone (ctx : ExecCtx) (s : Store) (filesystem_name : String)
    (filesystem : Filesystem) (user name : String) (delete_on_next_clean : Bool)
    (duration : Int) (zok₁ zok₂ : Bool) (w : Workspace)
    (hfind : findWorkspace s filesystem_name user name = some w)
    (hauth : ¬(ctx.current_username ≠ user ∧ ctx.current_uid ≠ 0))
    (hdis : ¬(filesystem.disabled ∧ ctx.current_uid ≠ 0))
    (hdur : ¬(filesystem.max_duration < duration ∧ ctx.current_uid ≠ 0)) :
    List.Forall₂ (fun v v' => v'.expiration_time ≤ v.expiration_time) s.workspaces
      (expire ctx s filesystem_name filesystem user name delete_on_next_clean zok₁).store.workspaces
  ∧ List.Forall₂ (fun v v' => v.expiration_time ≤ v'.expiration_time) s.workspaces
      (extend ctx s filesystem_name filesystem user name duration zok₂).store.workspaces
  ∧ (expire ctx s filesystem_name filesystem user name delete_on_next_clean zok₁).store.workspaces
      = s.workspaces.map (fun v =>
          if v.id == w.id then
            { v with expiration_time := (min v.expiration_time
                (if delete_on_next_clean then ctx.now - filesystem.expired_retention else ctx.now)) }
          else v)
  ∧ (extend ctx s filesystem_name filesystem user name duration zok₂).store.workspaces
      = s.workspaces.map (fun v =>
          if v.id == w.id then
            { v with expiration_time := max v.expiration_time (ctx.now + duration) }
          else v) := by
  have hexp : (expire ctx s filesystem_name filesystem user name delete_on_next_clean zok₁).store.workspaces
      = s.workspaces.map (fun v =>
          if v.id == w.id then
            { v with expiration_time := (min v.expiration_time
                (if delete_on_next_clean then ctx.now - filesystem.expired_retention else ctx.now)) }
          else v) := by
    simp only [expire, if_neg hauth, hfind]
  have hext : (extend ctx s filesystem_name filesystem user name duration zok₂).store.workspaces
      = s.workspaces.map (fun v =>
          if v.id == w.id then
            { v with expiration_time := max v.expiration_time (ctx.now + duration) }
          else v) := by
    simp only [extend, if_neg hauth, if_neg hdis, if_neg hdur, hfind]
  refine ⟨?_, ?_, hexp, hext⟩
  · rw [hexp]
    refine forall2_map_self (fun v => ?_) s.workspaces
    by_cases h : v.id == w.id
    · simp only [if_pos h]
      exact min_le_left _ _
    · simp only [if_neg h]
      exact le_refl _
  · rw [hext]
    refine forall2_map_self (fun v => ?_) s.workspaces
    by_cases h : v.id == w.id
    · simp only [if_pos h]
      exact le_max_left _ _
    · simp only [if_neg h]
      exact le_refl _

/-- Claim C2 witness: the sample store at a concrete invocation. -/
theorem expire_extend_monotone_witness :
    List.Forall₂ (fun v v' => v'.expiration_time ≤ v.expiration_time) storeSample.workspaces
      (expire ctxAlice storeSample "fsA" fsSample "alice" "proj" false true).store.workspaces
  ∧ List.Forall₂ (fun v v' => v.expiration_time ≤ v'.expiration_time) storeSample.workspaces
      (extend ctxAlice storeSample "fsA" fsSample "alice" "proj" 86400 true).store.workspaces
  ∧ (expire ctxAlice storeSample "fsA" fsSample "alice" "proj" false true).store.workspaces
      = storeSample.workspaces.map (fun v =>
          if v.id == (⟨1, "fsA", "alice", "proj", 5000⟩ : Workspace).id then
            { v with expiration_time := (min v.expiration_time
                (if false then ctxAlice.now - fsSample.expired_retention else ctxAlice.now)) }
          else v)
  ∧ (extend ctxAlice storeSample "fsA" fsSample "alice" "proj" 86400 true).store.workspaces
      = storeSample.workspaces.map (fun v =>
          if v.id == (⟨1, "fsA", "alice", "proj", 5000⟩ : Workspace).id then
            { v with expiration_time := max v.expiration_time (ctxAlice.now + 86400) }
          else v) :=
  expire_extend_monotone ctxAlice storeSample "fsA" fsSample "alice" "proj" false 86400
    true true ⟨1, "fsA", "alice", "proj", 5000⟩ (by decide) (by decide) (by decide) (by decide)

/-- Claim C7: after an Extend that found its workspace, no notification entry
for that workspace is stamped strictly later than `now`; when the caller is
the unprivileged owner a fresh entry stamped `now` is present. -/
theorem extend_clears_future_notifications (ctx : ExecCtx) (s : Store)
    (filesystem_name : String) (filesystem : Filesystem) (user name : String)
    (duration : Int) (zok : Bool) (w : Workspace)
    (hfind : findWorkspace s filesystem_name user name = some w)
    (hauth : ¬(ctx.current_username ≠ user ∧ ctx.current_uid ≠ 0))
    (hdis : ¬(filesystem.disabled ∧ ctx.current_uid ≠ 0))
    (hdur : ¬(filesystem.max_duration < duration ∧ ctx.current_uid ≠ 0)) :
    (∀ n ∈ (extend ctx s filesystem_name filesystem user name duration zok).store.notifications,
        n.workspace_id = w.id → n.timestamp ≤ ctx.now)
  ∧ (ctx.current_username = user ∧ ctx.current_uid ≠ 0 →
      (⟨w.id, ctx.now⟩ : NotificationEntry)
        ∈ (extend ctx s filesystem_name filesystem user name duration zok).store.notifications) := by
  have hns : (extend ctx s filesystem_name filesystem user name duration zok).store.notifications
      = (if ctx.current_username = user ∧ ctx.current_uid ≠ 0 then
          (s.notifications.filter
            (fun n => !(n.workspace_id == w.id && decide (ctx.now < n.timestamp)))) ++ [⟨w.id, ctx.now⟩]
         else
          s.notifications.filter
            (fun n => !(n.workspace_id == w.id && decide (ctx.now < n.timestamp)))) := by
    simp only [extend, if_neg hauth, if_neg hdis, if_neg hdur, hfind]
  constructor
  · intro n hn hwid
    rw [hns] at hn
    have hfil : ∀ m ∈ s.notifications.filter
        (fun n => !(n.workspace_id == w.id && decide (ctx.now < n.timestamp))),
        m.workspace_id = w.id → m.timestamp ≤ ctx.now := by
      intro m hm hmid
      have hp := (List.mem_filter.1 hm).2
      simp only [hmid, beq_self_eq_true, Bool.true_and, Bool.not_eq_true',
        decide_eq_false_iff_not, not_lt] at hp
      exact hp
    by_cases howner : ctx.current_username = user ∧ ctx.current_uid ≠ 0
    · rw [if_pos howner] at hn
      rcases List.mem_append.1 hn with hmem | hmem
      · exact hfil n hmem hwid
      · have he := List.mem_singleton.1 hmem
        subst he
        exact le_refl _
    · rw [if_neg howner] at hn
      exact hfil n hn hwid
  · intro howner
    rw [hns, if_pos howner]
    exact List.mem_append_right _ (List.mem_singleton.2 rfl)

/-- Claim C7 witness: extending the sample workspace as the unprivileged
owner deletes its future-dated entry and inserts one stamped now. -/
theorem extend_clears_future_notifications_witness :
    (∀ n ∈ (extend ctxAlice storeSample "fsA" fsSample "alice" "proj" 86400 true).store.notifications,
        n.workspace_id = (⟨1, "fsA", "alice", "proj", 5000⟩ : Workspace).id →
          n.timestamp ≤ ctxAlice.now)
  ∧ (⟨(⟨1, "fsA", "alice", "proj", 5000⟩ : Workspace).id, ctxAlice.now⟩ : NotificationEntry)
        ∈ (extend ctxAlice storeSample "fsA" fsSample "alice" "proj" 86400 true).store.notifications :=
  have h := extend_clears_future_notifications ctxAlice storeSample "fsA" fsSample "alice" "proj"
    86400 true ⟨1, "fsA", "alice", "proj", 5000⟩ (by decide) (by decide) (by decide) (by decide)
  ⟨h.1, h.2 (by decide)⟩

/-- Claim C5: under passing authorization and policy checks, Create with a
conflicting (filesystem, owner, name) triple exits with WorkspaceExists and
commits nothing; otherwise, one commit adds the workspace row with
expiration `now + duration` and a notification entry stamped `now`
referencing that row's id. -/
theorem create_transactional_insert (ctx : ExecCtx) (s : Store) (filesystem_name : String)
    (filesystem : Filesystem) (user name : String) (duration : Int) (zok : Bool)
    (hauth : ¬(ctx.current_username ≠ user ∧ ctx.current_uid ≠ 0))
    (hdis : ¬(filesystem.disabled ∧ ctx.current_uid ≠ 0))
    (hdur : ¬(filesystem.max_duration < duration ∧ ctx.current_uid ≠ 0)) :
    ((findWorkspace s filesystem_name user name).isSome →
        create ctx s filesystem_name filesystem user name duration zok
          = ⟨s, [], some (.exited .workspaceExists)⟩)
  ∧ (findWorkspace s filesystem_name user name = none →
        (create ctx s filesystem_name filesystem user name duration zok).store.workspaces
            = s.workspaces ++ [⟨freshId s, filesystem_name, user, name, ctx.now + duration⟩]
      ∧ (create ctx s filesystem_name filesystem user name duration zok).store.notifications
            = s.notifications ++ [⟨freshId s, ctx.now⟩]
      ∧ (create ctx s filesystem_name filesystem user name duration zok).trace
            = [.storeCommit, .volCreate (to_volume_string filesystem.root user name)]) := by
  constructor
  · intro hsome
    simp only [create, if_neg hauth, if_neg hdis, if_neg hdur, if_pos hsome]
  · intro hnone
    have hns : ¬((findWorkspace s filesystem_name user name).isSome = true) := by
      rw [hnone]
      simp
    simp only [create, if_neg hauth, if_neg hdis, if_neg hdur, if_neg hns]
    cases zok <;> simp

/-- Claim C5 witness: a fresh create on the sample store inserts the new
row with its fresh-now notification entry, and a conflicting create exits
with WorkspaceExists and leaves the store unchanged. -/
theorem create_transactional_insert_witness :
    create ctxAlice storeSample "fsA" fsSample "alice" "proj" 86400 true
        = ⟨storeSample, [], some (.exited .workspaceExists)⟩
  ∧ (create ctxAlice storeSample "fsA" fsSample "alice" "proj2" 86400 true).store.workspaces
        = storeSample.workspaces
            ++ [⟨freshId storeSample, "fsA", "alice", "proj2", ctxAlice.now + 86400⟩]
  ∧ (create ctxAlice storeSample "fsA" fsSample "alice" "proj2" 86400 true).store.notifications
        = storeSample.notifications ++ [⟨freshId storeSample, ctxAlice.now⟩]
  ∧ (create ctxAlice storeSample "fsA" fsSample "alice" "proj2" 86400 true).trace
        = [.storeCommit, .volCreate (to_volume_string fsSample.root "alice" "proj2")] :=
  have h1 := create_transactional_insert ctxAlice storeSample "fsA" fsSample "alice" "proj"
    86400 true (by decide) (by decide) (by decide)
  have h2 := create_transactional_insert ctxAlice storeSample "fsA" fsSample "alice" "proj2"
    86400 true (by decide) (by decide) (by decide)
  have h2c := h2.2 (by decide)
  ⟨h1.1 (by decide), h2c.1, h2c.2.1, h2c.2.2⟩

/-- Claim C1 counterexample: a concrete successful Rename performs the
external volume rename strictly before the store commit — its trace is
`[volRename, storeCommit]` — so the claim that every operation commits the
Store transaction before any Volume Manager side effect is false for Rename. -/
theorem rename_volume_rename_precedes_commit :
    (rename ctxRoot storeSample "fsA" fsSample "alice" "proj" "proj2" true).trace
      = [Event.volRename "tank/alice/proj" "tank/alice/proj2", Event.storeCommit]
  ∧ volEventBeforeCommit
      (rename ctxRoot storeSample "fsA" fsSample "alice" "proj" "proj2" true).trace = true
  ∧ (rename ctxRoot storeSample "fsA" fsSample "alice" "proj" "proj2" true).outcome = none := by
  refine ⟨by decide, by decide, by decide⟩

/-- Claim C1 (amended): Create, Extend and Expire commit the Store
transaction before any Volume Manager side effect; Rename instead performs
the external volume rename first and commits its row update only after the
external rename succeeded (a failed external rename rolls the row update
back). -/
theorem lifecycle_commit_ordering (ctx : ExecCtx) (s : Store) (filesystem_name : String)
    (filesystem : Filesystem) (user name src_name dest_name : String)
    (duration : Int) (delete_on_next_clean : Bool) (zokC zokE zokX zokR : Bool) :
    volEventBeforeCommit
        (create ctx s filesystem_name filesystem user name duration zokC).trace = false
  ∧ volEventBeforeCommit
        (extend ctx s filesystem_name filesystem user name duration zokE).trace = false
  ∧ volEventBeforeCommit
        (expire ctx s filesystem_name filesystem user name delete_on_next_clean zokX).trace = false
  ∧ (¬(ctx.current_username ≠ user ∧ ctx.current_uid ≠ 0) →
     ¬(filesystem.disabled ∧ ctx.current_uid ≠ 0) →
     ¬((findWorkspace s filesystem_name user src_name).isSome ∧ src_name ≠ dest_name ∧
        (findWorkspace s filesystem_name user dest_name).isSome) →
     (rename ctx s filesystem_name filesystem user src_name dest_name zokR).trace
        = Event.volRename (to_volume_string filesystem.root user src_name)
            (to_volume_string filesystem.root user dest_name)
          :: (if zokR then [Event.storeCommit] else [])) := by
  refine ⟨?_, ?_, ?_, ?_⟩
  · simp only [create]
    split
    · rfl
    split
    · rfl
    split
    · rfl
    split
    · rfl
    split <;> rfl
  · simp only [extend]
    split
    · rfl
    split
    · rfl
    split
    · rfl
    split <;> rfl
  · simp only [expire]
    split
    · rfl
    split <;> rfl
  · intro hauth hdis hconf
    simp only [rename, if_neg hauth, if_neg hdis, if_neg hconf]
    cases zokR <;> rfl

/-- Claim C1 (amended) witness: the ordering facts at a concrete invocation. -/
theorem lifecycle_commit_ordering_witness :
    volEventBeforeCommit
        (create ctxRoot storeSample "fsA" fsSample "alice" "proj2" 86400 true).trace = false
  ∧ volEventBeforeCommit
        (extend ctxRoot storeSample "fsA" fsSample "alice" "proj" 86400 true).trace = false
  ∧ volEventBeforeCommit
        (expire ctxRoot storeSample "fsA" fsSample "alice" "proj" false true).trace = false
  ∧ (rename ctxRoot storeSample "fsA" fsSample "alice" "proj" "proj2" true).trace
        = Event.volRename (to_volume_string fsSample.root "alice" "proj")
            (to_volume_string fsSample.root "alice" "proj2")
          :: (if true then [Event.storeCommit] else []) :=
  have h := lifecycle_commit_ordering ctxRoot storeSample "fsA" fsSample "alice" "proj" "proj"
    "proj2" 86400 false true true true true
  ⟨h.1, h.2.1, h.2.2.1, h.2.2.2 (by decide) (by decide) (by decide)⟩

/-- Claim C10: a Rename whose (filesystem, owner, src) triple matches no row
does not signal NotFound or any store error: the zero-row UPDATE is treated
as success and the operation proceeds to (and performs) the external volume
rename, leaving the table unchanged — whereas Expire and Extend exit with
UnknownWorkspace on the same missing triple, before any external call. -/
theorem rename_missing_source_proceeds (ctx : ExecCtx) (s : Store) (filesystem_name : String)
    (filesystem : Filesystem) (user src_name dest_name : String)
    (delete_on_next_clean : Bool) (duration : Int) (zokX zokE : Bool)
    (hauth : ¬(ctx.current_username ≠ user ∧ ctx.current_uid ≠ 0))
    (hdis : ¬(filesystem.disabled ∧ ctx.current_uid ≠ 0))
    (hdur : ¬(filesystem.max_duration < duration ∧ ctx.current_uid ≠ 0))
    (hfind : findWorkspace s filesystem_name user src_name = none) :
    (rename ctx s filesystem_name filesystem user src_name dest_name true).outcome = none
  ∧ (rename ctx s filesystem_name filesystem user src_name dest_name true).store.workspaces
      = s.workspaces
  ∧ (rename ctx s filesystem_name filesystem user src_name dest_name true).store.notifications
      = s.notifications
  ∧ (rename ctx s filesystem_name filesystem user src_name dest_name true).trace
      = [Event.volRename (to_volume_string filesystem.root user src_name)
           (to_volume_string filesystem.root user dest_name), Event.storeCommit]
  ∧ (expire ctx s filesystem_name filesystem user src_name delete_on_next_clean zokX).outcome
      = some (.exited .unknownWorkspace)
  ∧ (expire ctx s filesystem_name filesystem user src_name delete_on_next_clean zokX).trace = []
  ∧ (extend ctx s filesystem_name filesystem user src_name duration zokE).outcome
      = some (.exited .unknownWorkspace)
  ∧ (extend ctx s filesystem_name filesystem user src_name duration zokE).trace = [] := by
  have hconf : ¬((findWorkspace s filesystem_name user src_name).isSome ∧ src_name ≠ dest_name ∧
      (findWorkspace s filesystem_name user dest_name).isSome) := by
    rw [hfind]
    simp
  have hnm : ∀ w ∈ s.workspaces, tripleMatches filesystem_name user src_name w = false := by
    intro w hw
    have hall := List.find?_eq_none.mp hfind
    have := hall w hw
    simpa using this
  have hmap : s.workspaces.map (fun w =>
      if tripleMatches filesystem_name user src_name w then { w with name := dest_name }
      else w) = s.workspaces := by
    calc s.workspaces.map (fun w =>
          if tripleMatches filesystem_name user src_name w then { w with name := dest_name }
          else w)
        = s.workspaces.map id := by
          apply List.map_congr_left
          intro w hw
          simp [hnm w hw]
      _ = s.workspaces := List.map_id _
  refine ⟨?_, ?_, ?_, ?_, ?_, ?_, ?_, ?_⟩
  · simp only [rename, if_neg hauth, if_neg hdis, if_neg hconf, if_true]
  · simp only [rename, if_neg hauth, if_neg hdis, if_neg hconf, if_true]
    exact hmap
  · simp only [rename, if_neg hauth, if_neg hdis, if_neg hconf, if_true]
  · simp only [rename, if_neg hauth, if_neg hdis, if_neg hconf, if_true]
  · simp only [expire, if_neg hauth, hfind]
  · simp only [expire, if_neg hauth, hfind]
  · simp only [extend, if_neg hauth, if_neg hdis, if_neg hdur, hfind]
  · simp only [extend, if_neg hauth, if_neg hdis, if_neg hdur, hfind]

/-- Claim C10 witness: the sample store has no workspace named nope. -/
theorem rename_missing_source_proceeds_witness :
    (rename ctxAlice storeSample "fsA" fsSample "alice" "nope" "proj2" true).outcome = none
  ∧ (rename ctxAlice storeSample "fsA" fsSample "alice" "nope" "proj2" true).store.workspaces
      = storeSample.workspaces
  ∧ (rename ctxAlice storeSample "fsA" fsSample "alice" "nope" "proj2" true).store.notifications
      = storeSample.notifications
  ∧ (rename ctxAlice storeSample "fsA" fsSample "alice" "nope" "proj2" true).trace
      = [Event.volRename (to_volume_string fsSample.root "alice" "nope")
           (to_volume_string fsSample.root "alice" "proj2"), Event.storeCommit]
  ∧ (expire ctxAlice storeSample "fsA" fsSample "alice" "nope" false true).outcome
      = some (.exited .unknownWorkspace)
  ∧ (expire ctxAlice storeSample "fsA" fsSample "alice" "nope" false true).trace = []
  ∧ (extend ctxAlice storeSample "fsA" fsSample "alice" "nope" 86400 true).outcome
      = some (.exited .unknownWorkspace)
  ∧ (extend ctxAlice storeSample "fsA" fsSample "alice" "nope" 86400 true).trace = [] :=
  rename_missing_source_proceeds ctxAlice storeSample "fsA" fsSample "alice" "nope" "proj2"
    false 86400 true true (by decide) (by decide) (by decide) (by decide)

/-- The configured offset list is ascending: the deserializer sorts it. -/
theorem sorted_from_days_list (ds : List Int) :
    (from_days_list ds).Sorted (fun a b => a ≤ b) := by
  unfold from_days_list
  refine List.Pairwise.map _ (fun a b hab => ?_) (List.sorted_insertionSort _ ds)
  exact mul_le_mul_of_nonneg_right hab (by norm_num)

/-- On an ascending list, `find?` for strictly-greater-than returns the least
element strictly greater than the threshold. -/
theorem find_first_gt_least (r : Int) :
    ∀ {l : List Int}, l.Sorted (fun a b => a ≤ b) →
      ∀ {d : Int}, l.find? (fun x => decide (r < x)) = some d →
        d ∈ l ∧ r < d ∧ ∀ e ∈ l, r < e → d ≤ e := by
  intro l
  induction l with
  | nil =>
    intro _ d hd
    simp [List.find?] at hd
  | cons a t ih =>
    intro hs d hd
    by_cases hra : r < a
    · rw [List.find?_cons_of_pos _ (by simpa using hra)] at hd
      rcases Option.some.inj hd with rfl
      refine ⟨List.mem_cons_self _ _, hra, ?_⟩
      intro e he _
      rcases List.mem_cons.1 he with rfl | het
      · exact le_refl _
      · exact List.rel_of_sorted_cons hs e het
    · rw [List.find?_cons_of_neg _ (by simpa using hra)] at hd
      rcases ih hs.of_cons hd with ⟨hmem, hlt, hmin⟩
      refine ⟨List.mem_cons_of_mem _ hmem, hlt, ?_⟩
      intro e he hre
      rcases List.mem_cons.1 he with rfl | het
      · exact absurd hre hra
      · exact hmin e het hre

/-- `maxTimestamp` is `none` exactly on the empty list. -/
theorem maxTimestamp_eq_none : ∀ {l : List Int}, maxTimestamp l = none ↔ l = []
  | [] => by simp [maxTimestamp]
  | t :: ts => by
    constructor
    · intro h
      unfold maxTimestamp at h
      rcases hm : maxTimestamp ts with _ | m <;> rw [hm] at h <;> cases h
    · intro h
      cases h

/-- There is no last notification exactly when the workspace has no log
entries at all. -/
theorem lastNotificationTime_eq_none (ns : List NotificationEntry) (workspace_id : Nat) :
    lastNotificationTime ns workspace_id = none ↔ ∀ n ∈ ns, n.workspace_id ≠ workspace_id := by
  unfold lastNotificationTime
  rw [maxTimestamp_eq_none, List.map_eq_nil_iff, List.filter_eq_nil_iff]
  constructor
  · intro h n hn
    have := h n hn
    simpa using this
  · intro h n hn
    simpa using h n hn

/-- Claim C3: the scheduler selects the smallest offset of the ascending
configured list strictly greater than `remaining = expiration - now` (and
does not fire when no offset qualifies), and then fires exactly when the
workspace has no log entry or its most recent entry is strictly earlier than
`deadline = expiration - offset`. -/
theorem scheduler_threshold_selection (fs : Filesystem) (ds : List Int)
    (expiration_time now : Int) (ns : List NotificationEntry) (workspace_id : Nat)
    (hoff : fs.expiry_notifications_on_days = from_days_list ds) :
    ((∀ d ∈ fs.expiry_notifications_on_days, d ≤ expiration_time - now) →
        notifyDecision fs expiration_time now (lastNotificationTime ns workspace_id) = none)
  ∧ (∀ offset,
      fs.expiry_notifications_on_days.find?
          (fun d => decide (expiration_time - now < d)) = some offset →
        (offset ∈ fs.expiry_notifications_on_days
          ∧ expiration_time - now < offset
          ∧ ∀ d ∈ fs.expiry_notifications_on_days, expiration_time - now < d → offset ≤ d)
        ∧ ((notifyDecision fs expiration_time now (lastNotificationTime ns workspace_id)).isSome
            ↔ (lastNotificationTime ns workspace_id = none
               ∨ ∃ t, lastNotificationTime ns workspace_id = some t
                      ∧ t < expiration_time - offset)))
  ∧ (lastNotificationTime ns workspace_id = none
        ↔ ∀ n ∈ ns, n.workspace_id ≠ workspace_id) := by
  refine ⟨?_, ?_, lastNotificationTime_eq_none ns workspace_id⟩
  · intro hall
    have hnone : fs.expiry_notifications_on_days.find?
        (fun d => decide (expiration_time - now < d)) = none := by
      rw [List.find?_eq_none]
      intro d hd
      simpa using not_lt.2 (hall d hd)
    simp only [notifyDecision, hnone]
  · intro offset hfound
    have hsorted : fs.expiry_notifications_on_days.Sorted (fun a b => a ≤ b) := by
      rw [hoff]
      exact sorted_from_days_list ds
    refine ⟨find_first_gt_least _ hsorted hfound, ?_⟩
    simp only [notifyDecision, hfound]
    rcases hlast : lastNotificationTime ns workspace_id with _ | t
    · simp
    · by_cases hfire : t < expiration_time - offset
      · simp [hfire]
      · simp [hfire]

/-- Claim C3 witness: the sample filesystem (offsets one and seven days)
with the sample notification history at a concrete instant. -/
theorem scheduler_threshold_selection_witness :
    ((∀ d ∈ fsSample.expiry_notifications_on_days, d ≤ (5000 : Int) - 1000) →
        notifyDecision fsSample 5000 1000 (lastNotificationTime storeSample.notifications 1) = none)
  ∧ (∀ offset,
      fsSample.expiry_notifications_on_days.find?
          (fun d => decide ((5000 : Int) - 1000 < d)) = some offset →
        (offset ∈ fsSample.expiry_notifications_on_days
          ∧ (5000 : Int) - 1000 < offset
          ∧ ∀ d ∈ fsSample.expiry_notifications_on_days, (5000 : Int) - 1000 < d → offset ≤ d)
        ∧ ((notifyDecision fsSample 5000 1000
              (lastNotificationTime storeSample.notifications 1)).isSome
            ↔ (lastNotificationTime storeSample.notifications 1 = none
               ∨ ∃ t, lastNotificationTime storeSample.notifications 1 = some t
                      ∧ t < (5000 : Int) - offset)))
  ∧ (lastNotificationTime storeSample.notifications 1 = none
        ↔ ∀ n ∈ storeSample.notifications, n.workspace_id ≠ 1) :=
  scheduler_threshold_selection fsSample [1, 7] 5000 1000 storeSample.notifications 1 rfl

/-- Claim C6 counterexample: at `remaining = expiration - now = 0`, which the
claim assigns to the days-until-expiry case (`remaining ≥ 0`), the scheduler
fires the days-until-permanent-deletion message instead: the source branches
on `duration_until_expiry > Duration::days(0)`, a strict inequality. -/
theorem scheduler_zero_remaining_message :
    (0 : Int) ≤ 100 - 100
  ∧ notifyDecision fsBoundary 100 100 none = some (.deletedIn (30 * 86400))
  ∧ ∀ d, notifyDecision fsBoundary 100 100 none ≠ some (.expiresIn d) := by
  refine ⟨by decide, by decide, ?_⟩
  intro d h
  rw [show notifyDecision fsBoundary 100 100 none = some (.deletedIn (30 * 86400)) from
    by decide] at h
  exact NotifyMessage.noConfusion (Option.some.inj h)

/-- Any fired message is the branch on `0 < remaining` between the
days-until-expiry and days-until-deletion forms. -/
theorem notifyDecision_some_shape (fs : Filesystem) (expiration_time now : Int)
    (last : Option Int) (m : NotifyMessage)
    (hm : notifyDecision fs expiration_time now last = some m) :
    m = if 0 < expiration_time - now then NotifyMessage.expiresIn (expiration_time - now)
        else NotifyMessage.deletedIn (fs.expired_retention + (expiration_time - now)) := by
  simp only [notifyDecision] at hm
  rcases hfind : fs.expiry_notifications_on_days.find?
      (fun d => decide (expiration_time - now < d)) with _ | off <;> rw [hfind] at hm
  · cases hm
  · rcases last with _ | t
    · simp only [if_true] at hm
      exact (Option.some.inj hm).symm
    · simp only [decide_eq_true_eq] at hm
      by_cases ht : t < expiration_time - off
      · rw [if_pos ht] at hm
        exact (Option.some.inj hm).symm
      · rw [if_neg ht] at hm
        cases hm

/-- Claim C6 (amended): on firing, the message reports days-until-expiry when
`remaining > 0` and days-until-permanent-deletion, equal to the retention
window minus `now - expiration`, when `remaining ≤ 0` (the boundary
`remaining = 0` falls in the deletion case); a completed fire appends a log
entry stamped `now` for the workspace. -/
theorem scheduler_message_kinds (fs : Filesystem) (expiration_time now : Int)
    (last : Option Int) (workspace_id : Nat) (username : String) (ctx : NotifyCtx)
    (ns : List NotificationEntry) :
    (∀ m, notifyDecision fs expiration_time now last = some m →
        (0 < expiration_time - now → m = .expiresIn (expiration_time - now))
      ∧ (expiration_time - now ≤ 0 →
            m = .deletedIn (fs.expired_retention - (now - expiration_time))))
  ∧ (∀ m ns', notify_if_necessary_ workspace_id username ctx fs expiration_time now ns
        = .done (some m) ns' → ns' = ns ++ [⟨workspace_id, now⟩]) := by
  constructor
  · intro m hm
    have hshape := notifyDecision_some_shape fs expiration_time now last m hm
    constructor
    · intro hpos
      rw [hshape, if_pos hpos]
    · intro hle
      rw [hshape, if_neg (not_lt.2 hle)]
      congr 1
      ring
  · intro m ns' h
    unfold notify_if_necessary_ at h
    cases huc : ctx.userConfig username <;> simp only [huc] at h
    · by_cases hr : ctx.relayOk
      · simp only [hr, Bool.not_true, Bool.false_eq_true, if_false] at h
        rcases hdec : notifyDecision fs expiration_time now
            (lastNotificationTime ns workspace_id) with _ | m' <;>
          simp only [hdec] at h
        · injection h with h1 h2
          cases h1
        · by_cases hf : ctx.fromOk
          · simp only [hf, Bool.not_true, Bool.false_eq_true, if_false] at h
            by_cases hs : ctx.sendOk
            · simp only [hs, if_true] at h
              injection h with h1 h2
              exact h2.symm
            · simp only [hs, Bool.false_eq_true, if_false] at h
              cases h
          · simp only [hf, Bool.not_false, if_true] at h
            cases h
      · have hr' : ctx.relayOk = false := by
          cases hcr : ctx.relayOk
          · rfl
          · exact absurd hcr hr
        simp only [hr', Bool.not_false, if_true] at h
        cases h
    · cases h
    · cases h

/-- Claim C6 (amended) witness: at the concrete zero-remaining firing the
message value matches the retention formula, and the completed fire appended
the entry stamped now. -/
theorem scheduler_message_kinds_witness :
    NotifyMessage.deletedIn (30 * 86400)
        = NotifyMessage.deletedIn (fsBoundary.expired_retention - ((100 : Int) - 100))
  ∧ ([⟨1, 100⟩] : List NotificationEntry) = [] ++ [⟨1, 100⟩] :=
  have h := scheduler_message_kinds fsBoundary 100 100 none 1 "alice" notifyCtxOk []
  ⟨(h.1 (.deletedIn (30 * 86400)) (by decide)).2 (by decide),
   h.2 (.deletedIn (30 * 86400)) [⟨1, 100⟩] (by decide)⟩

/-- Claim C8: when the stored schema version equals the newest known version
the Migrator performs no step (no backup, no migration) and reports success;
when it is strictly newer the Migrator fails fatally with no step performed. -/
theorem migrator_noop_and_newer_guard (db_version : Nat) (backupOk : Bool)
    (stem stamp : String) :
    (db_version = NEWEST_DB_VERSION →
        update_database_schema_if_necessary db_version backupOk stem stamp = ([], none))
  ∧ (NEWEST_DB_VERSION < db_version →
        update_database_schema_if_necessary db_version backupOk stem stamp
          = ([], some .newerVersion)) := by
  constructor
  · intro h
    simp [update_database_schema_if_necessary, h]
  · intro h
    simp only [update_database_schema_if_necessary]
    rw [if_pos h]

/-- Claim C8 witness: the Migrator at the current version two and at the
unknown future version three. -/
theorem migrator_noop_and_newer_guard_witness :
    update_database_schema_if_necessary 2 true "workspaces" "20261012T120000" = ([], none)
  ∧ update_database_schema_if_necessary 3 true "workspaces" "20261012T120000"
      = ([], some .newerVersion) :=
  ⟨(migrator_noop_and_newer_guard 2 true "workspaces" "20261012T120000").1 (by decide),
   (migrator_noop_and_newer_guard 3 true "workspaces" "20261012T120000").2 (by decide)⟩

/-- Claim C9: for a stored version older than the newest, a failed backup is
fatal with no migration applied; with a successful backup the Migrator
succeeds, its first step is the timestamped backup, followed by exactly the
migrations indexed `db_version..NEWEST_DB_VERSION` in strictly ascending
index order, and every applied migration records its new version number
strictly before the single, final commit of its own transaction. -/
theorem migrator_backup_then_ordered_migrations (db_version : Nat) (stem stamp : String)
    (h : db_version < NEWEST_DB_VERSION) :
    update_database_schema_if_necessary db_version false stem stamp = ([], some .backupFailed)
  ∧ (update_database_schema_if_necessary db_version true stem stamp).2 = none
  ∧ (update_database_schema_if_necessary db_version true stem stamp).1
      = MigStep.backupStore (backupPath stem stamp)
          :: ((UPDATE_DB.enum.drop db_version).map (fun p => MigStep.runMigration p.1 p.2))
  ∧ (UPDATE_DB.enum.drop db_version).map Prod.fst
      = (List.range NEWEST_DB_VERSION).drop db_version
  ∧ strictlyAscending ((UPDATE_DB.enum.drop db_version).map Prod.fst) = true
  ∧ (UPDATE_DB.enum.drop db_version).all (fun p =>
      recordsVersionBeforeCommit (p.1 + 1) p.2
      && (p.2.getLast? == some DbAction.commitTx)
      && ((p.2.filter DbAction.commitP).length == 1)) = true := by
  have h2 : db_version < 2 := h
  interval_cases db_version <;>
    exact ⟨rfl, rfl, rfl, by decide, by decide, by decide⟩

/-- Claim C9 witness: migrating from version zero. -/
theorem migrator_backup_then_ordered_migrations_witness :
    update_database_schema_if_necessary 0 false "workspaces" "20261012T120000"
        = ([], some .backupFailed)
  ∧ (update_database_schema_if_necessary 0 true "workspaces" "20261012T120000").2 = none
  ∧ (update_database_schema_if_necessary 0 true "workspaces" "20261012T120000").1
      = MigStep.backupStore (backupPath "workspaces" "20261012T120000")
          :: ((UPDATE_DB.enum.drop 0).map (fun p => MigStep.runMigration p.1 p.2))
  ∧ (UPDATE_DB.enum.drop 0).map Prod.fst = (List.range NEWEST_DB_VERSION).drop 0
  ∧ strictlyAscending ((UPDATE_DB.enum.drop 0).map Prod.fst) = true
  ∧ (UPDATE_DB.enum.drop 0).all (fun p =>
      recordsVersionBeforeCommit (p.1 + 1) p.2
      && (p.2.getLast? == some DbAction.commitTx)
      && ((p.2.filter DbAction.commitP).length == 1)) = true :=
  migrator_backup_then_ordered_migrations 0 "workspaces" "20261012T120000" (by decide)

/-- A completed notification call either leaves the table unchanged or, when
a message was sent, appends exactly one entry stamped now. -/
theorem notify_done_shape (workspace_id : Nat) (username : String) (ctx : NotifyCtx)
    (fs : Filesystem) (expiration_time now : Int) (ns : List NotificationEntry)
    (fired : Option NotifyMessage) (ns1 : List NotificationEntry)
    (h : notify_if_necessary_ workspace_id username ctx fs expiration_time now ns
        = .done fired ns1) :
    ns1 = ns ∨ ns1 = ns ++ [⟨workspace_id, now⟩] := by
  unfold notify_if_necessary_ at h
  cases huc : ctx.userConfig username <;> simp only [huc] at h
  · by_cases hr : ctx.relayOk
    · simp only [hr, Bool.not_true, Bool.false_eq_true, if_false] at h
      rcases hdec : notifyDecision fs expiration_time now
          (lastNotificationTime ns workspace_id) with _ | m <;> simp only [hdec] at h
      · injection h with h1 h2
        exact Or.inl h2.symm
      · by_cases hf : ctx.fromOk
        · simp only [hf, Bool.not_true, Bool.false_eq_true, if_false] at h
          by_cases hs : ctx.sendOk
          · simp only [hs, if_true] at h
            injection h with h1 h2
            exact Or.inr h2.symm
          · simp only [hs, Bool.false_eq_true, if_false] at h
            cases h
        · simp only [hf, Bool.not_false, if_true] at h
          cases h
    · have hr' : ctx.relayOk = false := by
        cases hcr : ctx.relayOk
        · rfl
        · exact absurd hcr hr
      simp only [hr', Bool.not_false, if_true] at h
      cases h
  · cases h
  · cases h

/-- The notification step of the sweep either leaves the table unchanged or
appends exactly one entry stamped now for the current row. -/
theorem notifyStep_shape (now : Int) (smtp : Option NotifyCtx) (w : Workspace)
    (fs : Filesystem) (ns ns1 : List NotificationEntry) (evs1 : List Event)
    (h : notifyStep now smtp w fs ns = some (ns1, evs1)) :
    ns1 = ns ∨ ns1 = ns ++ [⟨w.id, now⟩] := by
  unfold notifyStep at h
  rcases smtp with _ | ctx
  · injection h with h1
    injection h1 with h2 h3
    exact Or.inl h2.symm
  · rcases hn : notify_if_necessary_ w.id w.user ctx fs w.expiration_time now ns
        with _ | _ | ⟨fired, ns2⟩ <;> simp only [hn] at h
    · injection h with h1
      injection h1 with h2 h3
      exact Or.inl h2.symm
    · cases h
    · injection h with h1
      injection h1 with h2 h3
      rcases notify_done_shape w.id w.user ctx fs w.expiration_time now ns fired ns2 hn
          with hs | hs
      · exact Or.inl (h2 ▸ hs)
      · exact Or.inr (h2 ▸ hs)

/-- A committed sweep keeps exactly the rows that are not past retention with
a successful destroy: the surviving list is a filter of the input. -/
theorem maintainLoop_workspaces (now : Int) (filesystems : List (String × Filesystem))
    (smtp : Option NotifyCtx) (destroyOk setReadonlyOk : String → Bool) :
    ∀ (ws : List Workspace) (ns : List NotificationEntry)
      (ws' : List Workspace) (ns' : List NotificationEntry) (evs : List Event),
      maintainLoop now filesystems smtp destroyOk setReadonlyOk ws ns = some (ws', ns', evs) →
      ws' = ws.filter (keepW now filesystems destroyOk) := by
  intro ws
  induction ws with
  | nil =>
    intro ns ws' ns' evs h
    simp only [maintainLoop, Option.some.injEq, Prod.mk.injEq] at h
    obtain ⟨rfl, rfl, rfl⟩ := h
    simp
  | cons w rest ih =>
    intro ns ws' ns' evs h
    rw [maintainLoop] at h
    rcases hlk : lookupFs filesystems w.filesystem with _ | fs <;> simp only [hlk] at h
    · cases h
    · rcases hstep : notifyStep now smtp w fs ns with _ | ⟨ns1, evs1⟩ <;> simp only [hstep] at h
      · cases h
      · by_cases hpast : w.expiration_time < now - fs.expired_retention
        · simp only [if_pos hpast] at h
          by_cases hdok : destroyOk (to_volume_string fs.root w.user w.name) = true
          · simp only [if_pos hdok] at h
            rcases hrec : maintainLoop now filesystems smtp destroyOk setReadonlyOk rest
                (ns1.filter (fun n => !(n.workspace_id == w.id))) with _ | ⟨⟨ws2, ns2, evs2⟩⟩ <;>
              simp only [hrec] at h
            · cases h
            · simp only [Option.some.injEq, Prod.mk.injEq] at h
              obtain ⟨rfl, rfl, rfl⟩ := h
              rw [List.filter_cons_of_neg (by simp [keepW, hlk, hpast, hdok])]
              exact ih _ _ _ _ hrec
          · simp only [if_neg hdok] at h
            rcases hrec : maintainLoop now filesystems smtp destroyOk setReadonlyOk rest ns1
                with _ | ⟨⟨ws2, ns2, evs2⟩⟩ <;> simp only [hrec] at h
            · cases h
            · simp only [Option.some.injEq, Prod.mk.injEq] at h
              obtain ⟨rfl, rfl, rfl⟩ := h
              rw [List.filter_cons_of_pos (by simp [keepW, hlk, hpast, hdok])]
              rw [ih _ _ _ _ hrec]
        · simp only [if_neg hpast] at h
          have hkeep : keepW now filesystems destroyOk w = true := by
            simp [keepW, hlk, hpast]
          by_cases hnow : w.expiration_time < now
          · simp only [if_pos hnow] at h
            by_cases hro : setReadonlyOk (to_volume_string fs.root w.user w.name) = true
            · simp only [if_pos hro] at h
              rcases hrec : maintainLoop now filesystems smtp destroyOk setReadonlyOk rest ns1
                  with _ | ⟨⟨ws2, ns2, evs2⟩⟩ <;> simp only [hrec] at h
              · cases h
              · simp only [Option.some.injEq, Prod.mk.injEq] at h
                obtain ⟨rfl, rfl, rfl⟩ := h
                rw [List.filter_cons_of_pos hkeep]
                rw [ih _ _ _ _ hrec]
            · simp only [if_neg hro] at h
              cases h
          · simp only [if_neg hnow] at h
            rcases hrec : maintainLoop now filesystems smtp destroyOk setReadonlyOk rest ns1
                with _ | ⟨⟨ws2, ns2, evs2⟩⟩ <;> simp only [hrec] at h
            · cases h
            · simp only [Option.some.injEq, Prod.mk.injEq] at h
              obtain ⟨rfl, rfl, rfl⟩ := h
              rw [List.filter_cons_of_pos hkeep]
              rw [ih _ _ _ _ hrec]

/-- Every notification entry present after a committed sweep was either
already present before it or is stamped now. -/
theorem maintainLoop_notifications_new (now : Int) (filesystems : List (String × Filesystem))
    (smtp : Option NotifyCtx) (destroyOk setReadonlyOk : String → Bool) :
    ∀ (ws : List Workspace) (ns : List NotificationEntry)
      (ws' : List Workspace) (ns' : List NotificationEntry) (evs : List Event),
      maintainLoop now filesystems smtp destroyOk setReadonlyOk ws ns = some (ws', ns', evs) →
      ∀ n ∈ ns', n ∈ ns ∨ n.timestamp = now := by
  intro ws
  induction ws with
  | nil =>
    intro ns ws' ns' evs h
    simp only [maintainLoop, Option.some.injEq, Prod.mk.injEq] at h
    obtain ⟨rfl, rfl, rfl⟩ := h
    intro n hn
    exact Or.inl hn
  | cons w rest ih =>
    intro ns ws' ns' evs h
    rw [maintainLoop] at h
    rcases hlk : lookupFs filesystems w.filesystem with _ | fs <;> simp only [hlk] at h
    · cases h
    · rcases hstep : notifyStep now smtp w fs ns with _ | ⟨ns1, evs1⟩ <;> simp only [hstep] at h
      · cases h
      · have hns1 : ∀ n ∈ ns1, n ∈ ns ∨ n.timestamp = now := by
          intro n hn
          rcases notifyStep_shape now smtp w fs ns ns1 evs1 hstep with rfl | hap
          · exact Or.inl hn
          · rw [hap] at hn
            rcases List.mem_append.1 hn with hn' | hn'
            · exact Or.inl hn'
            · have he := List.mem_singleton.1 hn'
              subst he
              exact Or.inr rfl
        by_cases hpast : w.expiration_time < now - fs.expired_retention
        · simp only [if_pos hpast] at h
          by_cases hdok : destroyOk (to_volume_string fs.root w.user w.name) = true
          · simp only [if_pos hdok] at h
            rcases hrec : maintainLoop now filesystems smtp destroyOk setReadonlyOk rest
                (ns1.filter (fun n => !(n.workspace_id == w.id))) with _ | ⟨⟨ws2, ns2, evs2⟩⟩ <;>
              simp only [hrec] at h
            · cases h
            · simp only [Option.some.injEq, Prod.mk.injEq] at h
              obtain ⟨rfl, rfl, rfl⟩ := h
              intro n hn
              rcases ih _ _ _ _ hrec n hn with hmem | hts
              · exact hns1 n (List.mem_filter.1 hmem).1
              · exact Or.inr hts
          · simp only [if_neg hdok] at h
            rcases hrec : maintainLoop now filesystems smtp destroyOk setReadonlyOk rest ns1
                with _ | ⟨⟨ws2, ns2, evs2⟩⟩ <;> simp only [hrec] at h
            · cases h
            · simp only [Option.some.injEq, Prod.mk.injEq] at h
              obtain ⟨rfl, rfl, rfl⟩ := h
              intro n hn
              rcases ih _ _ _ _ hrec n hn with hmem | hts
              · exact hns1 n hmem
              · exact Or.inr hts
        · simp only [if_neg hpast] at h
          by_cases hnow : w.expiration_time < now
          · simp only [if_pos hnow] at h
            by_cases hro : setReadonlyOk (to_volume_string fs.root w.user w.name) = true
            · simp only [if_pos hro] at h
              rcases hrec : maintainLoop now filesystems smtp destroyOk setReadonlyOk rest ns1
                  with _ | ⟨⟨ws2, ns2, evs2⟩⟩ <;> simp only [hrec] at h
              · cases h
              · simp only [Option.some.injEq, Prod.mk.injEq] at h
                obtain ⟨rfl, rfl, rfl⟩ := h
                intro n hn
                rcases ih _ _ _ _ hrec n hn with hmem | hts
                · exact hns1 n hmem
                · exact Or.inr hts
            · simp only [if_neg hro] at h
              cases h
          · simp only [if_neg hnow] at h
            rcases hrec : maintainLoop now filesystems smtp destroyOk setReadonlyOk rest ns1
                with _ | ⟨⟨ws2, ns2, evs2⟩⟩ <;> simp only [hrec] at h
            · cases h
            · simp only [Option.some.injEq, Prod.mk.injEq] at h
              obtain ⟨rfl, rfl, rfl⟩ := h
              intro n hn
              rcases ih _ _ _ _ hrec n hn with hmem | hts
              · exact hns1 n hmem
              · exact Or.inr hts

/-- A pre-existing notification entry survives a committed sweep provided its
workspace id is not the id of any row the sweep deletes. -/
theorem maintainLoop_notifications_kept (now : Int) (filesystems : List (String × Filesystem))
    (smtp : Option NotifyCtx) (destroyOk setReadonlyOk : String → Bool) :
    ∀ (ws : List Workspace) (ns : List NotificationEntry)
      (ws' : List Workspace) (ns' : List NotificationEntry) (evs : List Event),
      maintainLoop now filesystems smtp destroyOk setReadonlyOk ws ns = some (ws', ns', evs) →
      ∀ n ∈ ns,
        (∀ u ∈ ws, keepW now filesystems destroyOk u = false → n.workspace_id ≠ u.id) →
        n ∈ ns' := by
  intro ws
  induction ws with
  | nil =>
    intro ns ws' ns' evs h
    simp only [maintainLoop, Option.some.injEq, Prod.mk.injEq] at h
    obtain ⟨rfl, rfl, rfl⟩ := h
    intro n hn _
    exact hn
  | cons w rest ih =>
    intro ns ws' ns' evs h
    rw [maintainLoop] at h
    rcases hlk : lookupFs filesystems w.filesystem with _ | fs <;> simp only [hlk] at h
    · cases h
    · rcases hstep : notifyStep now smtp w fs ns with _ | ⟨ns1, evs1⟩ <;> simp only [hstep] at h
      · cases h
      · intro n hn hsafe
        have hns1 : n ∈ ns1 := by
          rcases notifyStep_shape now smtp w fs ns ns1 evs1 hstep with rfl | hap
          · exact hn
          · rw [hap]
            exact List.mem_append_left _ hn
        have hsafe' : ∀ u ∈ rest, keepW now filesystems destroyOk u = false →
            n.workspace_id ≠ u.id :=
          fun u hu hku => hsafe u (List.mem_cons_of_mem _ hu) hku
        by_cases hpast : w.expiration_time < now - fs.expired_retention
        · simp only [if_pos hpast] at h
          by_cases hdok : destroyOk (to_volume_string fs.root w.user w.name) = true
          · simp only [if_pos hdok] at h
            rcases hrec : maintainLoop now filesystems smtp destroyOk setReadonlyOk rest
                (ns1.filter (fun n => !(n.workspace_id == w.id))) with _ | ⟨⟨ws2, ns2, evs2⟩⟩ <;>
              simp only [hrec] at h
            · cases h
            · simp only [Option.some.injEq, Prod.mk.injEq] at h
              obtain ⟨rfl, rfl, rfl⟩ := h
              have hkw : keepW now filesystems destroyOk w = false := by
                simp [keepW, hlk, hpast, hdok]
              have hne : n.workspace_id ≠ w.id :=
                hsafe w (List.mem_cons_self _ _) hkw
              have hmem : n ∈ ns1.filter (fun n => !(n.workspace_id == w.id)) :=
                List.mem_filter.2 ⟨hns1, by simp [hne]⟩
              exact ih _ _ _ _ hrec n hmem hsafe'
          · simp only [if_neg hdok] at h
            rcases hrec : maintainLoop now filesystems smtp destroyOk setReadonlyOk rest ns1
                with _ | ⟨⟨ws2, ns2, evs2⟩⟩ <;> simp only [hrec] at h
            · cases h
            · simp only [Option.some.injEq, Prod.mk.injEq] at h
              obtain ⟨rfl, rfl, rfl⟩ := h
              exact ih _ _ _ _ hrec n hns1 hsafe'
        · simp only [if_neg hpast] at h
          by_cases hnow : w.expiration_time < now
          · simp only [if_pos hnow] at h
            by_cases hro : setReadonlyOk (to_volume_string fs.root w.user w.name) = true
            · simp only [if_pos hro] at h
              rcases hrec : maintainLoop now filesystems smtp destroyOk setReadonlyOk rest ns1
                  with _ | ⟨⟨ws2, ns2, evs2⟩⟩ <;> simp only [hrec] at h
              · cases h
              · simp only [Option.some.injEq, Prod.mk.injEq] at h
                obtain ⟨rfl, rfl, rfl⟩ := h
                exact ih _ _ _ _ hrec n hns1 hsafe'
            · simp only [if_neg hro] at h
              cases h
          · simp only [if_neg hnow] at h
            rcases hrec : maintainLoop now filesystems smtp destroyOk setReadonlyOk rest ns1
                with _ | ⟨⟨ws2, ns2, evs2⟩⟩ <;> simp only [hrec] at h
            · cases h
            · simp only [Option.some.injEq, Prod.mk.injEq] at h
              obtain ⟨rfl, rfl, rfl⟩ := h
              exact ih _ _ _ _ hrec n hns1 hsafe'

/-- Claim C4 (amended): in a committed sweep, a workspace row (and by cascade
its notification entries) is deleted only when now is past
expiration + retention and the external destroy succeeded; if the destroy
fails the row survives unchanged, all of its pre-existing log entries
survive, and the sweep still processes every other workspace (the survivors
are exactly a filter of the input); any log entry the sweep adds is stamped
now (the notification step may add such an entry even for a workspace whose
destroy failed). -/
theorem sweep_retention_deletion (now : Int) (filesystems : List (String × Filesystem))
    (smtp : Option NotifyCtx) (destroyOk setReadonlyOk snapshotOk : String → Bool)
    (s : Store) (ws' : List Workspace) (ns' : List NotificationEntry) (evs : List Event)
    (h : maintainLoop now filesystems smtp destroyOk setReadonlyOk s.workspaces s.notifications
          = some (ws', ns', evs))
    (hids : s.workspaces.Pairwise (fun a b => a.id ≠ b.id)) :
    (maintain now filesystems smtp destroyOk setReadonlyOk snapshotOk s).store
        = ⟨ws', ns'⟩
  ∧ ws' = s.workspaces.filter (keepW now filesystems destroyOk)
  ∧ (∀ v ∈ s.workspaces, v ∉ ws' →
      ∃ fs, lookupFs filesystems v.filesystem = some fs
        ∧ v.expiration_time < now - fs.expired_retention
        ∧ destroyOk (to_volume_string fs.root v.user v.name) = true)
  ∧ (∀ v ∈ s.workspaces, ∀ fs, lookupFs filesystems v.filesystem = some fs →
      v.expiration_time < now - fs.expired_retention →
      destroyOk (to_volume_string fs.root v.user v.name) = false →
      v ∈ ws' ∧ ∀ n ∈ s.notifications, n.workspace_id = v.id → n ∈ ns')
  ∧ (∀ n ∈ ns', n ∈ s.notifications ∨ n.timestamp = now) := by
  have hfil := maintainLoop_workspaces now filesystems smtp destroyOk setReadonlyOk _ _ _ _ _ h
  refine ⟨?_, hfil, ?_, ?_,
    maintainLoop_notifications_new now filesystems smtp destroyOk setReadonlyOk _ _ _ _ _ h⟩
  · rcases hsnap : snapshotLoop snapshotOk filesystems with ⟨snapEvs, snapErr⟩
    simp only [maintain, h, hsnap]
  · intro v hv hnot
    have hkf : keepW now filesystems destroyOk v = false := by
      cases hkk : keepW now filesystems destroyOk v
      · rfl
      · exact absurd (by rw [hfil]; exact List.mem_filter.2 ⟨hv, hkk⟩) hnot
    rcases hlk : lookupFs filesystems v.filesystem with _ | fs
    · simp [keepW, hlk] at hkf
    · refine ⟨fs, rfl, ?_, ?_⟩
      · have hb := hkf
        simp only [keepW, hlk, Bool.not_eq_false', Bool.and_eq_true, decide_eq_true_eq] at hb
        exact hb.1
      · have hb := hkf
        simp only [keepW, hlk, Bool.not_eq_false', Bool.and_eq_true, decide_eq_true_eq] at hb
        exact hb.2
  · intro v hv fs hlk hpast hdok
    have hkt : keepW now filesystems destroyOk v = true := by
      simp [keepW, hlk, hpast, hdok]
    refine ⟨by rw [hfil]; exact List.mem_filter.2 ⟨hv, hkt⟩, ?_⟩
    intro n hn hnid
    refine maintainLoop_notifications_kept now filesystems smtp destroyOk setReadonlyOk
      _ _ _ _ _ h n hn ?_
    intro u hu hku
    rw [hnid]
    by_cases huv : u = v
    · rw [huv, hkt] at hku
      cases hku
    · have hsym : Symmetric (fun (a b : Workspace) => a.id ≠ b.id) :=
        fun a b hab => hab.symm
      exact (hids.forall hsym hu hv huv).symm

/-- Claim C4 counterexample: a committed sweep whose only workspace is past
retention and whose volume destroy fails leaves the row in place, yet its
notification-log entries are not unchanged: the sweep's notification step
appended an entry stamped now before the destroy was attempted. -/
theorem sweep_destroy_failure_log_grows :
    (maintain 1000 [("fsA", fsSweep)] (some notifyCtxOk) (fun _ => false) (fun _ => true)
        (fun _ => true) storeSweep).store.workspaces = storeSweep.workspaces
  ∧ (maintain 1000 [("fsA", fsSweep)] (some notifyCtxOk) (fun _ => false) (fun _ => true)
        (fun _ => true) storeSweep).outcome = none
  ∧ storeSweep.notifications = []
  ∧ (maintain 1000 [("fsA", fsSweep)] (some notifyCtxOk) (fun _ => false) (fun _ => true)
        (fun _ => true) storeSweep).store.notifications
      = [⟨1, 1000⟩]
  ∧ (maintain 1000 [("fsA", fsSweep)] (some notifyCtxOk) (fun _ => false) (fun _ => true)
        (fun _ => true) storeSweep).store.notifications ≠ storeSweep.notifications :=
  ⟨by decide, by decide, rfl, by decide, by decide⟩

/-- Claim C4 (amended) witness: the same concrete sweep, through the amended
theorem. -/
theorem sweep_retention_deletion_witness :
    (maintain 1000 [("fsA", fsSweep)] (some notifyCtxOk) (fun _ => false) (fun _ => true)
        (fun _ => true) storeSweep).store
        = ⟨[⟨1, "fsA", "alice", "w", -1000000⟩], [⟨1, 1000⟩]⟩
  ∧ [⟨1, "fsA", "alice", "w", -1000000⟩]
      = storeSweep.workspaces.filter (keepW 1000 [("fsA", fsSweep)] (fun _ => false))
  ∧ (∀ v ∈ storeSweep.workspaces, v ∉ [(⟨1, "fsA", "alice", "w", -1000000⟩ : Workspace)] →
      ∃ fs, lookupFs [("fsA", fsSweep)] v.filesystem = some fs
        ∧ v.expiration_time < 1000 - fs.expired_retention
        ∧ (fun _ => false) (to_volume_string fs.root v.user v.name) = true)
  ∧ (∀ v ∈ storeSweep.workspaces, ∀ fs, lookupFs [("fsA", fsSweep)] v.filesystem = some fs →
      v.expiration_time < 1000 - fs.expired_retention →
      (fun _ => false) (to_volume_string fs.root v.user v.name) = false →
      v ∈ [(⟨1, "fsA", "alice", "w", -1000000⟩ : Workspace)]
        ∧ ∀ n ∈ storeSweep.notifications, n.workspace_id = v.id →
            n ∈ [(⟨1, 1000⟩ : NotificationEntry)])
  ∧ (∀ n ∈ [(⟨1, 1000⟩ : NotificationEntry)],
        n ∈ storeSweep.notifications ∨ n.timestamp = 1000) :=
  sweep_retention_deletion 1000 [("fsA", fsSweep)] (some notifyCtxOk) (fun _ => false)
    (fun _ => true) (fun _ => true) storeSweep
    [⟨1, "fsA", "alice", "w", -1000000⟩] [⟨1, 1000⟩]
    [.mailSend, .volDestroy "tank/alice/w"] (by decide) (by decide)
